import Mathlib

/-!
Shallow embedding of the ROFFLE game-economy server (`src/server.js`,
second / most complete revision): the wheel payout table, tier catalog,
bundle catalog, the `/spin`, `/spins/update`, `/tier/apply`,
`/inventory/unlock` handlers, the referral handler, the pre-checkout
validator and the successful-payment handler.

Conventions of the embedding:
  * Telegram user ids and JS numbers are modelled as `Int`; a JS falsy
    id (`!tg_id`) is modelled as the value `0`.
  * The Supabase `roff_users` table is an association list keyed by
    `tg_id`; `roff_referrals` and `roff_inventory` are lists of tuples.
  * Timestamps (`new Date().toISOString()`) are opaque `Nat` values
    supplied by the caller as `now`.
  * The random segment draw (`crypto.randomInt`) is a `Fin 25`
    parameter of the handler.
  * Database columns absent from an insert take the schema default:
    `golden_tickets` defaults to `0`.
-/

/-- One row of the `roff_users` table (economy-relevant columns). -/
structure Account where
  balance : Int
  spins_left : Int
  golden_tickets : Int
  premium_tier : String
  invites : Int
  last_seen : Nat
deriving DecidableEq, Repr

/-- The `roff_users` table: association list keyed by `tg_id`. -/
abbrev UserStore := List (Int × Account)

/-- Supabase `.select().eq("tg_id", id).maybeSingle()`: first row with the key. -/
def findUser : UserStore → Int → Option Account
  | [], _ => none
  | (k, a) :: rest, id => if k = id then some a else findUser rest id

/-- Supabase `.update(fields).eq("tg_id", id)`: rewrite every row with the key. -/
def updateUser : UserStore → Int → (Account → Account) → UserStore
  | [], _, _ => []
  | (k, a) :: rest, id, f =>
    (k, if k = id then f a else a) :: updateUser rest id f

/-- Supabase `.insert(row)`: append a row. -/
def insertUser (store : UserStore) (id : Int) (a : Account) : UserStore :=
  store ++ [(id, a)]

/-- `getOrCreateUser` (`server.js:575`): read the row, or insert the default
row `{balance: 0, spins_left: 20, premium_tier: "free", invites: 0}`. -/
def getOrCreateUser (store : UserStore) (tg_id : Int) (now : Nat) : Account × UserStore :=
  match findUser store tg_id with
  | some a => (a, store)
  | none =>
    let a : Account :=
      { balance := 0, spins_left := 20, golden_tickets := 0,
        premium_tier := "free", invites := 0, last_seen := now }
    (a, insertUser store tg_id a)

/-- `SEGMENTS_TOTAL` (`server.js:449`). -/
def SEGMENTS_TOTAL : Nat := 25

/-- `TIER_MULT` (`server.js:450`): tier multiplier lookup; `none` models a
missing key in the JS object. -/
def TIER_MULT : String → Option Nat
  | "free" => some 1
  | "plus" => some 2
  | "pro" => some 3
  | "prem" => some 5
  | _ => none

/-- `TIER_CAP` (`server.js:456`). -/
def TIER_CAP : String → Option Nat
  | "free" => some 20
  | "plus" => some 40
  | "pro" => some 60
  | "prem" => some 100
  | _ => none

/-- One entry of `BUNDLE_CONFIG` (economy-relevant fields). -/
structure Bundle where
  stars : Nat
  rof : Nat
  spins : Nat
  tickets : Nat
deriving DecidableEq, Repr

/-- `BUNDLE_CONFIG` (`server.js:465`). -/
def BUNDLE_CONFIG : String → Option Bundle
  | "mini" => some { stars := 299, rof := 20000, spins := 100, tickets := 1 }
  | "medi" => some { stars := 599, rof := 50000, spins := 250, tickets := 2 }
  | "maxi" => some { stars := 1199, rof := 125000, spins := 500, tickets := 3 }
  | _ => none

/-- The `put` helper inside `buildSlots` (`server.js:498`): for each 1-indexed
position `n`, write the amount at 0-indexed `n-1` unless already set. -/
def put (arr : List (Option Nat)) (idxs : List Nat) (amt : Nat) : List (Option Nat) :=
  idxs.foldl
    (fun a n => if (a.getD (n - 1) none) = none then a.set (n - 1) (some amt) else a)
    arr

/-- `buildSlots` (`server.js:493`): the 25-segment payout table, slot 0 = 100,
then the `put` calls in source order. `none` models a `null` slot. -/
def buildSlots : List (Option Nat) :=
  let arr := List.replicate SEGMENTS_TOTAL (none : Option Nat)
  let arr := arr.set 0 (some 100)
  let arr := put arr [2, 4, 6, 8, 10, 12, 14, 16, 18, 20, 22, 24] 1
  let arr := put arr [3, 7, 11, 15, 19, 23] 2
  let arr := put arr [5, 9, 13] 5
  let arr := put arr [17, 25] 20
  put arr [21] 50

/-- `const slots = buildSlots()` (`server.js:517`). -/
def slots : List (Option Nat) := buildSlots

/-- `slots[index].amount || 0` (`server.js:938`). -/
def slotAmount (i : Nat) : Nat := (slots.getD i none).getD 0

/-- The tier multiplier the spin handler uses (`server.js:930`):
`user.premium_tier && TIER_MULT[user.premium_tier] ? user.premium_tier : "free"`,
then `TIER_MULT[tierKey]`. An empty string is falsy and `TIER_MULT ""` is
`none`, so both reduce to: the tier's multiplier if present, else free's 1. -/
def tierMultOf (tier : String) : Nat :=
  match TIER_MULT tier with
  | some m => m
  | none => 1

/-- The request's `turboMult` field: `numVal t` is a JS number whose
`Math.floor` is `t`; `nonNum` is any non-number value (absent, string, …). -/
inductive TurboReq where
  | numVal (t : Int)
  | nonNum
deriving DecidableEq, Repr

/-- `const allowed = [1, 5, 10, 20, 50]` (`server.js:917`). -/
def allowedTurbo : List Int := [1, 5, 10, 20, 50]

/-- The coercion in the spin handler (`server.js:918`): `turbo = 1`, and for a
numeric `turboMult`, `turbo = allowed.includes(floor(turboMult)) ? floor : 1`. -/
def coerceTurbo : TurboReq → Int
  | .numVal t => if allowedTurbo.contains t then t else 1
  | .nonNum => 1

/-- Result of the `/spin` endpoint. -/
inductive SpinResult where
  | missingId
  | noSpins
  | okSpin (index : Nat) (prize : Int) (balance : Int) (spins_left : Int)
deriving DecidableEq, Repr

/-- The `/spin` handler (`server.js:904`), with the random draw `index` and
the timestamp `now` passed in. Returns the HTTP result and the new store. -/
def spinHandler (store : UserStore) (tg_id : Int) (turboMult : TurboReq)
    (index : Fin 25) (now : Nat) : SpinResult × UserStore :=
  if tg_id = 0 then (.missingId, store)
  else
    let (user, store1) := getOrCreateUser store tg_id now
    let availableSpins := user.spins_left
    let turbo := coerceTurbo turboMult
    if availableSpins < turbo then (.noSpins, store1)
    else
      let tierMult := tierMultOf user.premium_tier
      let base := slotAmount index.val
      let perSpinPrize : Int := (base : Int) * (tierMult : Int)
      let prize := perSpinPrize * turbo
      let newBalance := user.balance + prize
      let newSpins := availableSpins - turbo
      let store2 := updateUser store1 tg_id
        (fun u => { u with balance := newBalance, spins_left := newSpins, last_seen := now })
      (.okSpin index.val prize newBalance newSpins, store2)

/-- Result of the `/spins/update` endpoint. -/
inductive SpinsUpdateResult where
  | badArgs
  | okDone
deriving DecidableEq, Repr

/-- The `/spins/update` handler (`server.js:976`): reject unless `tg_id` is
truthy and `spins_left` is a number (`some n`); otherwise overwrite the
column with `n` and stamp `last_seen`. -/
def spinsUpdate (store : UserStore) (tg_id : Int) (spins_left : Option Int)
    (now : Nat) : SpinsUpdateResult × UserStore :=
  if tg_id = 0 then (.badArgs, store)
  else
    match spins_left with
    | none => (.badArgs, store)
    | some n =>
      (.okDone, updateUser store tg_id (fun u => { u with spins_left := n, last_seen := now }))

/-- Result of the `/tier/apply` endpoint. -/
inductive TierApplyResult where
  | missingFields
  | okDone
deriving DecidableEq, Repr

/-- The `/tier/apply` handler (`server.js:1216`): set `premium_tier` to the
request's `tier_key` for the given `tg_id`, with no other check (note: it
does not stamp `last_seen`). -/
def tierApply (store : UserStore) (tg_id : Int) (tier_key : String) :
    TierApplyResult × UserStore :=
  if tg_id = 0 ∨ tier_key = "" then (.missingFields, store)
  else (.okDone, updateUser store tg_id (fun u => { u with premium_tier := tier_key }))

/-- The `roff_inventory` table: list of `(tg_id, item_type, item_id)` rows. -/
abbrev Inventory := List (Int × String × String)

/-- Supabase select on `roff_inventory` by the full tuple (`server.js:1254`). -/
def invOwned (inv : Inventory) (tg_id : Int) (item_type item_id : String) : Bool :=
  inv.any (fun e => e.1 == tg_id && e.2.1 == item_type && e.2.2 == item_id)

/-- Result of the `/inventory/unlock` endpoint. -/
inductive UnlockResult where
  | missingFields
  | okUnlock (alreadyOwned : Bool)
deriving DecidableEq, Repr

/-- The `/inventory/unlock` handler (`server.js:1245`): check-then-insert. -/
def inventoryUnlock (inv : Inventory) (tg_id : Int) (item_type item_id : String) :
    UnlockResult × Inventory :=
  if tg_id = 0 ∨ item_type = "" ∨ item_id = "" then (.missingFields, inv)
  else if invOwned inv tg_id item_type item_id then (.okUnlock true, inv)
  else (.okUnlock false, inv ++ [(tg_id, item_type, item_id)])

/-- `getStarsPrice` (`server.js:525`): catalog price in Stars; `0` for any
unknown `(item_type, item_id)` combination. -/
def getStarsPrice (item_type item_id : String) : Nat :=
  if item_type = "tier" then
    if item_id = "plus" then 700
    else if item_id = "pro" then 1400
    else if item_id = "prem" then 2100
    else 0
  else if item_type = "wheel" ∨ item_type = "bg" then 299
  else if item_type = "bundle" then
    match BUNDLE_CONFIG item_id with
    | some cfg => cfg.stars
    | none => 0
  else 0

/-- The `invoice_payload` string as seen by `JSON.parse`: either it decodes
to an object carrying `tg_id`, `item_type`, `item_id` (a missing/falsy
`tg_id` is `0`, a missing string field is `""`), or parsing throws. -/
inductive Payload where
  | decodable (tg_id : Int) (item_type : String) (item_id : String)
  | undecodable
deriving DecidableEq, Repr

/-- The price-validation core of `handlePreCheckout` (`server.js:695`):
`expectedAmount` is the catalog price of the decoded payload (`0` when
parsing throws), and `ok = expectedAmount > 0 ? total_amount === expectedAmount : true`. -/
def expectedAmountOf : Payload → Nat
  | .decodable _ t i => getStarsPrice t i
  | .undecodable => 0

/-- The approve/reject answer `handlePreCheckout` sends (`server.js:709`). -/
def preCheckoutOk (total_amount : Int) (payload : Payload) : Bool :=
  let expectedAmount := expectedAmountOf payload
  if expectedAmount > 0 then total_amount == (expectedAmount : Int) else true

/-- The `roff_referrals` table: list of `(referrer_tg_id, referred_tg_id)`. -/
abbrev Referrals := List (Int × Int)

/-- The persistent state the economy handlers touch. -/
structure DB where
  users : UserStore
  referrals : Referrals
  inventory : Inventory
deriving DecidableEq, Repr

/-- `handleSuccessfulPayment` (`server.js:735`), modelled on the database
state: grant by `item_type` (`tier` sets the tier, `wheel`/`bg` inserts an
inventory row with no duplicate check, `bundle` read-modify-writes the
balances); any other type, an unknown bundle id, or an undecodable payload
changes nothing. `from_id` is `msg.from.id`, used when the payload's
`tg_id` is falsy. -/
def handleSuccessfulPayment (db : DB) (p : Payload) (from_id : Int) (now : Nat) : DB :=
  match p with
  | .undecodable => db
  | .decodable tg_id item_type item_id =>
    let telegramId := if tg_id = 0 then from_id else tg_id
    if item_type = "tier" then
      let users1 := updateUser db.users telegramId
        (fun u => { u with premium_tier := item_id, last_seen := now })
      { db with users := users1 }
    else if item_type = "wheel" ∨ item_type = "bg" then
      { db with inventory := db.inventory ++ [(telegramId, item_type, item_id)] }
    else if item_type = "bundle" then
      match BUNDLE_CONFIG item_id with
      | none => db
      | some cfg =>
        let row := findUser db.users telegramId
        let currentBalance := (row.map Account.balance).getD 0
        let currentSpins := (row.map Account.spins_left).getD 0
        let currentTickets := (row.map Account.golden_tickets).getD 0
        let users1 := updateUser db.users telegramId
          (fun u => { u with balance := currentBalance + (cfg.rof : Int),
                             spins_left := currentSpins + (cfg.spins : Int),
                             golden_tickets := currentTickets + (cfg.tickets : Int),
                             last_seen := now })
        { db with users := users1 }
    else db

/-- One base-36 digit as `parseInt(_, 36)` reads it (case-insensitive). -/
def digit36 (c : Char) : Option Nat :=
  if '0' ≤ c ∧ c ≤ '9' then some (c.toNat - '0'.toNat)
  else if 'a' ≤ c ∧ c ≤ 'z' then some (c.toNat - 'a'.toNat + 10)
  else if 'A' ≤ c ∧ c ≤ 'Z' then some (c.toNat - 'A'.toNat + 10)
  else none

/-- The digit-consuming loop of `parseInt(_, 36)`: reads the maximal prefix
of base-36 digits, stopping at the first non-digit. -/
def parse36Loop : List Char → Int → Int
  | [], acc => acc
  | c :: rest, acc =>
    match digit36 c with
    | some d => parse36Loop rest (acc * 36 + d)
    | none => acc

/-- `parseInt(refCode, 36)` (`server.js:621`): optional sign, then at least
one base-36 digit (`none` models `NaN`). Referral codes arrive from
`text.split(" ")` so carry no surrounding whitespace. -/
def parseInt36 (s : String) : Option Int :=
  let cs := s.toList
  let signed : Bool × List Char :=
    match cs with
    | '-' :: rest => (true, rest)
    | '+' :: rest => (false, rest)
    | _ => (false, cs)
  match signed.2 with
  | [] => none
  | c :: _ =>
    match digit36 c with
    | none => none
    | some _ =>
      let v := parse36Loop signed.2 0
      some (if signed.1 then -v else v)

/-- The inner `rewardUser` of `handleReferral` (`server.js:653`): read the
row; in either branch the new values are computed from the read row with
missing fields as `0` (`row?.x ?? 0`); an existing row is updated, a
missing one is inserted fresh (with tier `"free"`, and `golden_tickets`
taking the schema default `0`). -/
def rewardUser (store : UserStore) (tg_id : Int) (addCoins addSpins : Int)
    (addInvite : Bool) (now : Nat) : UserStore :=
  let row := findUser store tg_id
  let balance := (row.map Account.balance).getD 0 + addCoins
  let spins_left := (row.map Account.spins_left).getD 0 + addSpins
  let invites := (row.map Account.invites).getD 0 + (if addInvite then 1 else 0)
  match row with
  | some _ =>
    updateUser store tg_id
      (fun u => { u with balance := balance, spins_left := spins_left,
                         invites := invites, last_seen := now })
  | none =>
    insertUser store tg_id
      { balance := balance, spins_left := spins_left, golden_tickets := 0,
        premium_tier := "free", invites := invites, last_seen := now }

/-- `.eq("referrer_tg_id", rid).eq("referred_tg_id", fid).maybeSingle()`
(`server.js:630`). -/
def recordFound (refs : Referrals) (rid fid : Int) : Bool :=
  refs.any (fun p => p.1 == rid && p.2 == fid)

/-- `handleReferral` (`server.js:614`): decode the code as base-36, bail on
NaN / non-positive / self-referral / already-recorded pair; otherwise insert
the referral row and reward referrer (+200 coins, +20 spins, +1 invite)
then referred (+200 coins, +20 spins). -/
def handleReferral (db : DB) (refCode : String) (fromId : Int) (now : Nat) : DB :=
  if refCode = "" then db
  else
    match parseInt36 refCode with
    | none => db
    | some referrerId =>
      if referrerId ≤ 0 then db
      else if referrerId = fromId then db
      else if recordFound db.referrals referrerId fromId then db
      else
        let refs1 := db.referrals ++ [(referrerId, fromId)]
        let users1 := rewardUser db.users referrerId 200 20 true now
        let users2 := rewardUser users1 fromId 200 20 false now
        { db with referrals := refs1, users := users2 }

/-- Replaying the same referral claim `k` times, with arbitrary timestamps. -/
def replayReferral (db : DB) (refCode : String) (fromId : Int) (nows : Nat → Nat) :
    Nat → DB
  | 0 => db
  | k + 1 => handleReferral (replayReferral db refCode fromId nows k) refCode fromId (nows k)

/-- Number of `roff_referrals` rows for one ordered pair. -/
def countPair (refs : Referrals) (rid fid : Int) : Nat :=
  (refs.filter (fun p => p.1 == rid && p.2 == fid)).length

/-- Number of `roff_inventory` rows for one `(tg_id, item_type, item_id)` tuple. -/
def invCount (inv : Inventory) (tg_id : Int) (item_type item_id : String) : Nat :=
  (inv.filter (fun e => e.1 == tg_id && e.2.1 == item_type && e.2.2 == item_id)).length

/-- The spec's tier order free < plus < pro < prem, as a rank. -/
def tierRank : String → Nat
  | "plus" => 1
  | "pro" => 2
  | "prem" => 3
  | _ => 0

theorem findUser_updateUser_self (s : UserStore) (id : Int) (f : Account → Account) :
    findUser (updateUser s id f) id = (findUser s id).map f := by
  induction s with
  | nil => rfl
  | cons p rest ih =>
    obtain ⟨k, a⟩ := p
    by_cases h : k = id
    · simp [updateUser, findUser, h]
    · simp [updateUser, findUser, h, ih]

theorem findUser_updateUser_ne (s : UserStore) (id id' : Int) (f : Account → Account)
    (h : id' ≠ id) : findUser (updateUser s id f) id' = findUser s id' := by
  induction s with
  | nil => rfl
  | cons p rest ih =>
    obtain ⟨k, a⟩ := p
    by_cases hk : k = id
    · simp [updateUser, findUser, hk, Ne.symm h, ih]
    · by_cases hk' : k = id'
      · simp [updateUser, findUser, hk, hk', h]
      · simp [updateUser, findUser, hk, hk', ih]

theorem findUser_insertUser_self (s : UserStore) (id : Int) (a : Account)
    (h : findUser s id = none) : findUser (insertUser s id a) id = some a := by
  induction s with
  | nil => simp [insertUser, findUser]
  | cons p rest ih =>
    obtain ⟨k, b⟩ := p
    by_cases hk : k = id
    · simp [findUser, hk] at h
    · simp only [findUser, hk, if_false, if_neg] at h
      simp only [insertUser, List.cons_append, findUser, hk, if_neg, if_false]
      exact ih h

theorem findUser_insertUser_ne (s : UserStore) (id id' : Int) (a : Account)
    (h : id' ≠ id) : findUser (insertUser s id a) id' = findUser s id' := by
  induction s with
  | nil => simp [insertUser, findUser, Ne.symm h]
  | cons p rest ih =>
    obtain ⟨k, b⟩ := p
    by_cases hk : k = id'
    · simp [insertUser, findUser, hk]
    · simpa [insertUser, findUser, hk] using ih

theorem getOrCreateUser_of_found (s : UserStore) (id : Int) (now : Nat) (a : Account)
    (h : findUser s id = some a) : getOrCreateUser s id now = (a, s) := by
  simp [getOrCreateUser, h]

/-- C1: for a spin request on an account whose `spins_left` is below the
coerced turbo multiplier, the handler answers the business result
`no_spins` (`{ok:false, error:"no_spins"}`, not an exception) and returns
the store unchanged: no field of any account is mutated. -/
theorem spin_insufficient_spins (store : UserStore) (tg_id : Int) (acc : Account)
    (turboMult : TurboReq) (index : Fin 25) (now : Nat)
    (hid : tg_id ≠ 0) (hfind : findUser store tg_id = some acc)
    (hlt : acc.spins_left < coerceTurbo turboMult) :
    spinHandler store tg_id turboMult index now = (SpinResult.noSpins, store) := by
  simp [spinHandler, getOrCreateUser_of_found store tg_id now acc hfind, hid, hlt]

/-- Witness for C1: account 7 with 4 spins, turbo 5 ⇒ `no_spins`, store intact. -/
theorem spin_insufficient_spins_wit :
    (7 : Int) ≠ 0 ∧
    (⟨10, 4, 0, "prem", 0, 0⟩ : Account).spins_left < coerceTurbo (.numVal 5) ∧
    spinHandler [((7 : Int), ⟨10, 4, 0, "prem", 0, 0⟩)] 7 (.numVal 5) 0 99 =
      (SpinResult.noSpins, [((7 : Int), ⟨10, 4, 0, "prem", 0, 0⟩)]) := by
  refine ⟨by decide, by decide, ?_⟩
  exact spin_insufficient_spins _ 7 ⟨10, 4, 0, "prem", 0, 0⟩ (.numVal 5) 0 99
    (by decide) (by decide) (by decide)

/-- C2: a successful spin with segment `index`, tier `acc.premium_tier` and
turbo request `turboMult` reports the prize
`payout[index] * tierMult * turbo` and persists exactly
`balance + prize` and `spins_left - turbo` (stamping `last_seen`); the tier
multipliers are free=1, plus=2, pro=3, prem=5 with any unknown tier treated
as free, and any turbo value outside {1,5,10,20,50} (or non-numeric) is
coerced to 1 rather than rejected. -/
theorem spin_success_payout (store : UserStore) (tg_id : Int) (acc : Account)
    (turboMult : TurboReq) (index : Fin 25) (now : Nat)
    (hid : tg_id ≠ 0) (hfind : findUser store tg_id = some acc)
    (hge : coerceTurbo turboMult ≤ acc.spins_left) :
    ((spinHandler store tg_id turboMult index now).1 =
      SpinResult.okSpin index.val
        ((slotAmount index.val : Int) * (tierMultOf acc.premium_tier : Int) * coerceTurbo turboMult)
        (acc.balance + (slotAmount index.val : Int) * (tierMultOf acc.premium_tier : Int) * coerceTurbo turboMult)
        (acc.spins_left - coerceTurbo turboMult) ∧
     findUser (spinHandler store tg_id turboMult index now).2 tg_id =
      some { acc with
              balance := acc.balance +
                (slotAmount index.val : Int) * (tierMultOf acc.premium_tier : Int) * coerceTurbo turboMult,
              spins_left := acc.spins_left - coerceTurbo turboMult,
              last_seen := now }) ∧
    (tierMultOf "free" = 1 ∧ tierMultOf "plus" = 2 ∧ tierMultOf "pro" = 3 ∧ tierMultOf "prem" = 5) ∧
    (TIER_MULT acc.premium_tier = none → tierMultOf acc.premium_tier = 1) ∧
    (∀ t : Int, allowedTurbo.contains t → coerceTurbo (.numVal t) = t) ∧
    (∀ t : Int, ¬ allowedTurbo.contains t = true → coerceTurbo (.numVal t) = 1) ∧
    coerceTurbo .nonNum = 1 := by
  have hnlt : ¬ (acc.spins_left < coerceTurbo turboMult) := not_lt.mpr hge
  refine ⟨?_, ⟨rfl, rfl, rfl, rfl⟩, ?_, ?_, ?_, rfl⟩
  · simp [spinHandler, getOrCreateUser_of_found store tg_id now acc hfind, hid, hnlt,
      findUser_updateUser_self, hfind, mul_assoc]
  · intro h
    simp [tierMultOf, h]
  · intro t ht
    have hm : t ∈ allowedTurbo := by simpa using ht
    simp [coerceTurbo, hm]
  · intro t ht
    have hm : t ∉ allowedTurbo := by simpa using ht
    simp [coerceTurbo, hm]

/-- Witness for C2: segment 0, tier prem, turbo 10 ⇒ prize 100×5×10 = 5000. -/
theorem spin_success_payout_wit :
    coerceTurbo (.numVal 10) ≤ (⟨10, 25, 0, "prem", 0, 0⟩ : Account).spins_left ∧
    (spinHandler [((7 : Int), ⟨10, 25, 0, "prem", 0, 0⟩)] 7 (.numVal 10) 0 99).1 =
      SpinResult.okSpin 0 5000 5010 15 ∧
    findUser (spinHandler [((7 : Int), ⟨10, 25, 0, "prem", 0, 0⟩)] 7 (.numVal 10) 0 99).2 7 =
      some ⟨5010, 15, 0, "prem", 0, 99⟩ := by
  have h := spin_success_payout [((7 : Int), ⟨10, 25, 0, "prem", 0, 0⟩)] 7
    ⟨10, 25, 0, "prem", 0, 0⟩ (.numVal 10) 0 99 (by decide) (by decide) (by decide)
  refine ⟨by decide, ?_, ?_⟩
  · exact h.1.1.trans (by decide)
  · exact h.1.2.trans (by decide)

/-- C3: the payout table has exactly 25 segments, every segment has a
defined base prize, and the base prizes follow the spec's mapping
(0-indexed 0 → 100; 1-indexed 2,4,…,24 → 1; 3,7,11,15,19,23 → 2;
5,9,13 → 5; 17,25 → 20; 21 → 50). -/
theorem payout_table_spec :
    slots.length = 25 ∧
    (∀ i : Fin 25, (slots.getD i.val none).isSome = true) ∧
    slotAmount 0 = 100 ∧
    (∀ n ∈ [2, 4, 6, 8, 10, 12, 14, 16, 18, 20, 22, 24], slotAmount (n - 1) = 1) ∧
    (∀ n ∈ [3, 7, 11, 15, 19, 23], slotAmount (n - 1) = 2) ∧
    (∀ n ∈ [5, 9, 13], slotAmount (n - 1) = 5) ∧
    (∀ n ∈ [17, 25], slotAmount (n - 1) = 20) ∧
    slotAmount (21 - 1) = 50 := by
  decide

/-- C4 counterexample: a decodable payload naming an unknown
`(item_type, item_id)` makes `getStarsPrice` return 0, and the handler then
approves unconditionally — here the arbitrary nonzero amount 12345 is
approved even though it does not equal the catalog price, contradicting the
claim that only undecodable payloads are approved unconditionally. -/
theorem precheckout_unknown_item_approved :
    preCheckoutOk 12345 (Payload.decodable 1 "xyz" "abc") = true ∧
    getStarsPrice "xyz" "abc" = 0 ∧
    (12345 : Int) ≠ ((getStarsPrice "xyz" "abc" : Nat) : Int) := by
  decide

/-- C4 amended: pre-checkout approves iff the expected price computed from
the payload is zero (undecodable payload, or decodable but unknown item) or
the claimed total equals that expected price; for a known item with a
positive price, such as tier plus at 700, only the exact amount approves. -/
theorem precheckout_approval_rule :
    (∀ (amt : Int) (p : Payload),
      preCheckoutOk amt p = true ↔ (expectedAmountOf p = 0 ∨ amt = (expectedAmountOf p : Int))) ∧
    (∀ amt : Int, preCheckoutOk amt Payload.undecodable = true) ∧
    (∀ (amt tg : Int), preCheckoutOk amt (.decodable tg "tier" "plus") = true ↔ amt = 700) := by
  have key : ∀ (amt : Int) (p : Payload),
      preCheckoutOk amt p = true ↔ (expectedAmountOf p = 0 ∨ amt = (expectedAmountOf p : Int)) := by
    intro amt p
    unfold preCheckoutOk
    by_cases h : expectedAmountOf p = 0
    · simp [h]
    · have hpos : 0 < expectedAmountOf p := Nat.pos_of_ne_zero h
      rw [if_pos hpos]
      simp [h]
  refine ⟨key, fun amt => rfl, fun amt tg => ?_⟩
  have h7 : expectedAmountOf (.decodable tg "tier" "plus") = 700 := rfl
  rw [key amt (.decodable tg "tier" "plus"), h7]
  simp

/-- C5: the successful-payment handler has no processed-payment guard, so
replaying the identical confirmed bundle payment applies the economy grant
twice — account 1 starts at balance 0; after one delivery of the mini
bundle payment its balance is 20000, and after the identical replay it is
40000 (spins and golden tickets double likewise), so the second processing
is not a no-op on account state. -/
theorem payment_replay_double_grant :
    (findUser (handleSuccessfulPayment ⟨[(1, ⟨0, 20, 0, "free", 0, 0⟩)], [], []⟩
        (.decodable 1 "bundle" "mini") 1 5).users 1).map Account.balance = some 20000 ∧
    (findUser (handleSuccessfulPayment (handleSuccessfulPayment
        ⟨[(1, ⟨0, 20, 0, "free", 0, 0⟩)], [], []⟩ (.decodable 1 "bundle" "mini") 1 5)
        (.decodable 1 "bundle" "mini") 1 5).users 1).map Account.spins_left = some 220 ∧
    (findUser (handleSuccessfulPayment (handleSuccessfulPayment
        ⟨[(1, ⟨0, 20, 0, "free", 0, 0⟩)], [], []⟩ (.decodable 1 "bundle" "mini") 1 5)
        (.decodable 1 "bundle" "mini") 1 5).users 1).map Account.balance = some 40000 := by
  decide

theorem parseInt36_empty : parseInt36 "" = none := rfl

theorem handleReferral_noop_of_found (db : DB) (refCode : String) (fromId rid : Int)
    (now : Nat) (hdec : parseInt36 refCode = some rid)
    (hfound : recordFound db.referrals rid fromId = true) :
    handleReferral db refCode fromId now = db := by
  unfold handleReferral
  by_cases hc : refCode = ""
  · rw [if_pos hc]
  · rw [if_neg hc, hdec]
    by_cases h1 : rid ≤ 0
    · simp [h1]
    · by_cases h2 : rid = fromId
      · simp [h1, h2]
      · simp [h1, h2, hfound]

theorem recordFound_append_self (refs : Referrals) (rid fid : Int) :
    recordFound (refs ++ [(rid, fid)]) rid fid = true := by
  simp [recordFound]

theorem handleReferral_success (db : DB) (refCode : String) (fromId rid : Int) (now : Nat)
    (hdec : parseInt36 refCode = some rid) (hpos : 0 < rid) (hne : rid ≠ fromId)
    (hnew : recordFound db.referrals rid fromId = false) :
    handleReferral db refCode fromId now =
      { db with referrals := db.referrals ++ [(rid, fromId)],
                users := rewardUser (rewardUser db.users rid 200 20 true now)
                  fromId 200 20 false now } := by
  have hc : refCode ≠ "" := by
    intro h
    rw [h, parseInt36_empty] at hdec
    exact Option.noConfusion hdec
  have h1 : ¬ rid ≤ 0 := not_le.mpr hpos
  unfold handleReferral
  rw [if_neg hc, hdec]
  simp [h1, hne, hnew]

theorem handleReferral_idem (db : DB) (refCode : String) (fromId : Int) (now1 now2 : Nat) :
    handleReferral (handleReferral db refCode fromId now1) refCode fromId now2 =
      handleReferral db refCode fromId now1 := by
  by_cases hc : refCode = ""
  · simp [handleReferral, hc]
  · cases hdec : parseInt36 refCode with
    | none => simp [handleReferral, hc, hdec]
    | some rid =>
      by_cases h1 : rid ≤ 0
      · simp [handleReferral, hc, hdec, h1]
      · by_cases h2 : rid = fromId
        · simp [handleReferral, hc, hdec, h1, h2]
        · by_cases h3 : recordFound db.referrals rid fromId = true
          · rw [handleReferral_noop_of_found db refCode fromId rid now1 hdec h3]
            exact handleReferral_noop_of_found db refCode fromId rid now2 hdec h3
          · have hnew : recordFound db.referrals rid fromId = false :=
              Bool.eq_false_iff.mpr h3
            have hpos : 0 < rid := not_le.mp h1
            rw [handleReferral_success db refCode fromId rid now1 hdec hpos h2 hnew]
            exact handleReferral_noop_of_found _ refCode fromId rid now2 hdec
              (recordFound_append_self db.referrals rid fromId)

theorem countPair_eq_zero_of_not_found (refs : Referrals) (rid fid : Int)
    (h : recordFound refs rid fid = false) : countPair refs rid fid = 0 := by
  rw [recordFound, List.any_eq_false] at h
  rw [countPair, List.length_eq_zero, List.filter_eq_nil_iff]
  exact h

theorem countPair_append (a b : Referrals) (rid fid : Int) :
    countPair (a ++ b) rid fid = countPair a rid fid + countPair b rid fid := by
  simp [countPair, List.filter_append]

theorem countPair_handleReferral_le (db : DB) (refCode : String) (fromId rid : Int)
    (now : Nat) (hdec : parseInt36 refCode = some rid) :
    countPair (handleReferral db refCode fromId now).referrals rid fromId ≤
      max (countPair db.referrals rid fromId) 1 := by
  by_cases hc : refCode = ""
  · simp only [handleReferral, if_pos hc]
    exact le_max_left _ _
  · by_cases h1 : rid ≤ 0
    · simp only [handleReferral, if_neg hc, hdec, if_pos h1]
      exact le_max_left _ _
    · by_cases h2 : rid = fromId
      · simp only [handleReferral, if_neg hc, hdec, if_neg h1, if_pos h2]
        exact le_max_left _ _
      · by_cases h3 : recordFound db.referrals rid fromId = true
        · rw [handleReferral_noop_of_found db refCode fromId rid now hdec h3]
          exact le_max_left _ _
        · have hnew : recordFound db.referrals rid fromId = false :=
            Bool.eq_false_iff.mpr h3
          rw [handleReferral_success db refCode fromId rid now hdec (not_le.mp h1) h2 hnew]
          have hone : countPair [(rid, fromId)] rid fromId = 1 := by simp [countPair]
          have hz := countPair_eq_zero_of_not_found db.referrals rid fromId hnew
          show countPair (db.referrals ++ [(rid, fromId)]) rid fromId ≤ _
          rw [countPair_append, hone, hz]
          exact le_max_right _ _

theorem countPair_replay_le (db : DB) (refCode : String) (fromId rid : Int)
    (nows : Nat → Nat) (hdec : parseInt36 refCode = some rid) :
    ∀ k, countPair (replayReferral db refCode fromId nows k).referrals rid fromId ≤
      max (countPair db.referrals rid fromId) 1 := by
  intro k
  induction k with
  | zero => exact le_max_left _ _
  | succ k ih =>
    have h := countPair_handleReferral_le (replayReferral db refCode fromId nows k)
      refCode fromId rid (nows k) hdec
    simp only [replayReferral] at h ⊢
    omega

/-- C6: for an ordered referral pair `(rid, fromId)` named by the claim's
code, a claim aborts with no change at all once a record for the exact
pair exists; replaying the same referral claim is idempotent on the whole
database; and after any number of replays the number of ReferralRecords
for the pair stays at most `max initial 1` — so from a pair-free state at
most one record and one reward application ever occur. -/
theorem referral_pair_idempotent (db : DB) (refCode : String) (fromId rid : Int)
    (now1 now2 : Nat) (nows : Nat → Nat) (hdec : parseInt36 refCode = some rid) :
    (recordFound db.referrals rid fromId = true →
      handleReferral db refCode fromId now1 = db) ∧
    handleReferral (handleReferral db refCode fromId now1) refCode fromId now2 =
      handleReferral db refCode fromId now1 ∧
    (∀ k, countPair (replayReferral db refCode fromId nows k).referrals rid fromId ≤
      max (countPair db.referrals rid fromId) 1) :=
  ⟨fun hf => handleReferral_noop_of_found db refCode fromId rid now1 hdec hf,
   handleReferral_idem db refCode fromId now1 now2,
   countPair_replay_le db refCode fromId rid nows hdec⟩

/-- Witness for C6: code "2" decodes to referrer 2; replaying the claim of
user 1 leaves the state of the first claim unchanged and at most one record. -/
theorem referral_pair_idempotent_wit :
    parseInt36 "2" = some 2 ∧
    handleReferral (handleReferral ⟨[], [], []⟩ "2" 1 5) "2" 1 6 =
      handleReferral ⟨[], [], []⟩ "2" 1 5 ∧
    countPair (replayReferral ⟨[], [], []⟩ "2" 1 (fun _ => 5) 3).referrals 2 1 ≤ 1 := by
  have h := referral_pair_idempotent ⟨[], [], []⟩ "2" 1 2 5 6 (fun _ => 5) (by decide)
  exact ⟨by decide, h.2.1, h.2.2 3⟩

theorem rewardUser_find_self_found (s : UserStore) (id : Int) (c sp : Int) (b : Bool)
    (now : Nat) (r : Account) (h : findUser s id = some r) :
    findUser (rewardUser s id c sp b now) id =
      some { r with balance := r.balance + c, spins_left := r.spins_left + sp,
                    invites := r.invites + (if b then 1 else 0), last_seen := now } := by
  simp [rewardUser, h, findUser_updateUser_self]

theorem rewardUser_find_self_missing (s : UserStore) (id : Int) (c sp : Int) (b : Bool)
    (now : Nat) (h : findUser s id = none) :
    findUser (rewardUser s id c sp b now) id =
      some { balance := c, spins_left := sp, golden_tickets := 0, premium_tier := "free",
             invites := if b then 1 else 0, last_seen := now } := by
  simp [rewardUser, h, findUser_insertUser_self]

theorem rewardUser_find_other (s : UserStore) (id id' : Int) (c sp : Int) (b : Bool)
    (now : Nat) (h : id' ≠ id) :
    findUser (rewardUser s id c sp b now) id' = findUser s id' := by
  cases hr : findUser s id with
  | some r => simp [rewardUser, hr, findUser_updateUser_ne _ _ _ _ h]
  | none => simp [rewardUser, hr, findUser_insertUser_ne _ _ _ _ h]

/-- C7 counterexample: a successful referral into an empty store (code "2"
decodes to referrer 2, referred user 1) leaves BOTH accounts with
`spins_left = 20`, not the 40 the claim's "default row (20 spins) plus the
+20 delta" account predicts: `rewardUser` applies the delta to the missing
row's fields read as 0, it does not create the default row first. -/
theorem referral_absent_account_credit :
    (findUser (handleReferral ⟨[], [], []⟩ "2" 1 5).users 1).map Account.spins_left = some 20 ∧
    (findUser (handleReferral ⟨[], [], []⟩ "2" 1 5).users 1).map Account.spins_left ≠ some (20 + 20) ∧
    (findUser (handleReferral ⟨[], [], []⟩ "2" 1 5).users 2).map Account.spins_left = some 20 ∧
    (findUser (handleReferral ⟨[], [], []⟩ "2" 1 5).users 2).map Account.spins_left ≠ some (20 + 20) := by
  decide

/-- C7 amended: on a successful first-time non-self referral the referrer
is credited +200 currency, +20 spins and +1 invites and the referred
account +200 currency and +20 spins with no invite increment; each side is
credited through `rewardUser`'s read-then-write (not getOrCreate followed
by applyDelta): an existing row receives the delta on its current values,
while an account absent from the store is inserted directly with the delta
applied to zero fields (balance 200, spins 20, tier free), not to the
default row. -/
theorem referral_reward_amended (db : DB) (refCode : String) (fromId rid : Int) (now : Nat)
    (hdec : parseInt36 refCode = some rid) (hpos : 0 < rid) (hne : rid ≠ fromId)
    (hnew : recordFound db.referrals rid fromId = false) :
    (handleReferral db refCode fromId now).referrals = db.referrals ++ [(rid, fromId)] ∧
    (∀ r, findUser db.users rid = some r →
      findUser (handleReferral db refCode fromId now).users rid =
        some { r with balance := r.balance + 200, spins_left := r.spins_left + 20,
                      invites := r.invites + 1, last_seen := now }) ∧
    (findUser db.users rid = none →
      findUser (handleReferral db refCode fromId now).users rid =
        some ⟨200, 20, 0, "free", 1, now⟩) ∧
    (∀ r, findUser db.users fromId = some r →
      findUser (handleReferral db refCode fromId now).users fromId =
        some { r with balance := r.balance + 200, spins_left := r.spins_left + 20,
                      last_seen := now }) ∧
    (findUser db.users fromId = none →
      findUser (handleReferral db refCode fromId now).users fromId =
        some ⟨200, 20, 0, "free", 0, now⟩) := by
  rw [handleReferral_success db refCode fromId rid now hdec hpos hne hnew]
  refine ⟨rfl, ?_, ?_, ?_, ?_⟩
  · intro r hr
    show findUser (rewardUser (rewardUser db.users rid 200 20 true now)
      fromId 200 20 false now) rid = _
    rw [rewardUser_find_other _ fromId rid _ _ _ _ hne,
      rewardUser_find_self_found _ _ _ _ _ _ r hr]
    simp
  · intro hr
    show findUser (rewardUser (rewardUser db.users rid 200 20 true now)
      fromId 200 20 false now) rid = _
    rw [rewardUser_find_other _ fromId rid _ _ _ _ hne,
      rewardUser_find_self_missing _ _ _ _ _ _ hr]
    simp
  · intro r hr
    have hfr : findUser (rewardUser db.users rid 200 20 true now) fromId = some r := by
      rw [rewardUser_find_other _ rid fromId _ _ _ _ (Ne.symm hne)]
      exact hr
    show findUser (rewardUser (rewardUser db.users rid 200 20 true now)
      fromId 200 20 false now) fromId = _
    rw [rewardUser_find_self_found _ _ _ _ _ _ r hfr]
    simp
  · intro hr
    have hfr : findUser (rewardUser db.users rid 200 20 true now) fromId = none := by
      rw [rewardUser_find_other _ rid fromId _ _ _ _ (Ne.symm hne)]
      exact hr
    show findUser (rewardUser (rewardUser db.users rid 200 20 true now)
      fromId 200 20 false now) fromId = _
    rw [rewardUser_find_self_missing _ _ _ _ _ _ hfr]
    simp

/-- Witness for C7's amended claim: both accounts exist; referrer 2 gains
+200/+20/+1 invite, referred 1 gains +200/+20 and keeps its invites. -/
theorem referral_reward_amended_wit :
    parseInt36 "2" = some 2 ∧
    (handleReferral ⟨[((2:Int), ⟨100, 5, 0, "free", 3, 0⟩), ((1:Int), ⟨50, 7, 0, "plus", 0, 0⟩)], [], []⟩
      "2" 1 9).referrals = [((2:Int), (1:Int))] ∧
    findUser (handleReferral ⟨[((2:Int), ⟨100, 5, 0, "free", 3, 0⟩), ((1:Int), ⟨50, 7, 0, "plus", 0, 0⟩)], [], []⟩
      "2" 1 9).users 2 = some ⟨300, 25, 0, "free", 4, 9⟩ ∧
    findUser (handleReferral ⟨[((2:Int), ⟨100, 5, 0, "free", 3, 0⟩), ((1:Int), ⟨50, 7, 0, "plus", 0, 0⟩)], [], []⟩
      "2" 1 9).users 1 = some ⟨250, 27, 0, "plus", 0, 9⟩ := by
  have h := referral_reward_amended
    ⟨[((2:Int), ⟨100, 5, 0, "free", 3, 0⟩), ((1:Int), ⟨50, 7, 0, "plus", 0, 0⟩)], [], []⟩
    "2" 1 2 9 (by decide) (by decide) (by decide) (by decide)
  refine ⟨by decide, by simpa using h.1, ?_, ?_⟩
  · exact (h.2.1 ⟨100, 5, 0, "free", 3, 0⟩ (by decide)).trans (by decide)
  · exact (h.2.2.2.1 ⟨50, 7, 0, "plus", 0, 0⟩ (by decide)).trans (by decide)

/-- C8 counterexample: the `/tier/apply` endpoint — not a payment — sets
account 7's tier from prem to free on request, so the tier is neither
payment-only nor monotone under the order free < plus < pro < prem. -/
theorem tier_apply_downgrade :
    (findUser [((7 : Int), ⟨0, 20, 0, "prem", 0, 0⟩)] 7).map Account.premium_tier = some "prem" ∧
    (tierApply [((7 : Int), ⟨0, 20, 0, "prem", 0, 0⟩)] 7 "free").1 = TierApplyResult.okDone ∧
    (findUser (tierApply [((7 : Int), ⟨0, 20, 0, "prem", 0, 0⟩)] 7 "free").2 7).map
      Account.premium_tier = some "free" ∧
    tierRank "free" < tierRank "prem" := by
  decide

/-- C8 amended: the tier is written by two reachable operations — the
`/tier/apply` endpoint and a successful tier payment — and each sets
`premium_tier` to the requested value unconditionally, with no
monotonicity check, so downgrades and non-payment tier changes are
reachable. -/
theorem tier_set_unconditional (store : UserStore) (refs : Referrals) (items : Inventory)
    (tg_id : Int) (acc : Account) (tier_key : String) (now : Nat)
    (hid : tg_id ≠ 0) (hkey : tier_key ≠ "") (hfind : findUser store tg_id = some acc) :
    ((tierApply store tg_id tier_key).1 = TierApplyResult.okDone ∧
      findUser (tierApply store tg_id tier_key).2 tg_id =
        some { acc with premium_tier := tier_key }) ∧
    findUser (handleSuccessfulPayment ⟨store, refs, items⟩
        (.decodable tg_id "tier" tier_key) tg_id now).users tg_id =
      some { acc with premium_tier := tier_key, last_seen := now } := by
  refine ⟨⟨?_, ?_⟩, ?_⟩
  · simp [tierApply, hid, hkey]
  · simp [tierApply, hid, hkey, findUser_updateUser_self, hfind]
  · simp [handleSuccessfulPayment, hid, findUser_updateUser_self, hfind]

/-- Witness for C8's amended claim: both write paths set prem → free. -/
theorem tier_set_unconditional_wit :
    (tierApply [((7 : Int), ⟨0, 20, 0, "prem", 0, 0⟩)] 7 "free").1 = TierApplyResult.okDone ∧
    findUser (tierApply [((7 : Int), ⟨0, 20, 0, "prem", 0, 0⟩)] 7 "free").2 7 =
      some ⟨0, 20, 0, "free", 0, 0⟩ ∧
    findUser (handleSuccessfulPayment ⟨[((7 : Int), ⟨0, 20, 0, "prem", 0, 0⟩)], [], []⟩
        (.decodable 7 "tier" "free") 7 9).users 7 = some ⟨0, 20, 0, "free", 0, 9⟩ := by
  have h := tier_set_unconditional [((7 : Int), ⟨0, 20, 0, "prem", 0, 0⟩)] [] [] 7
    ⟨0, 20, 0, "prem", 0, 0⟩ "free" 9 (by decide) (by decide) (by decide)
  exact ⟨h.1.1, h.1.2.trans (by decide), h.2.trans (by decide)⟩

theorem invCount_eq_zero_of_not_owned (items : Inventory) (tg_id : Int)
    (item_type item_id : String) (h : invOwned items tg_id item_type item_id = false) :
    invCount items tg_id item_type item_id = 0 := by
  rw [invOwned, List.any_eq_false] at h
  rw [invCount, List.length_eq_zero, List.filter_eq_nil_iff]
  exact h

/-- C9: starting from a state where `(tg_id, item_type, item_id)` is not
owned, the first unlock returns `alreadyOwned=false`, the second returns
`alreadyOwned=true` and changes nothing, exactly one InventoryItem for the
tuple exists afterwards, and unlock never removes an existing item. -/
theorem unlock_twice_spec (items : Inventory) (tg_id : Int) (item_type item_id : String)
    (hid : tg_id ≠ 0) (ht : item_type ≠ "") (hi : item_id ≠ "")
    (hnot : invOwned items tg_id item_type item_id = false) :
    (inventoryUnlock items tg_id item_type item_id).1 = UnlockResult.okUnlock false ∧
    (inventoryUnlock (inventoryUnlock items tg_id item_type item_id).2
      tg_id item_type item_id).1 = UnlockResult.okUnlock true ∧
    (inventoryUnlock (inventoryUnlock items tg_id item_type item_id).2
      tg_id item_type item_id).2 = (inventoryUnlock items tg_id item_type item_id).2 ∧
    invCount (inventoryUnlock items tg_id item_type item_id).2 tg_id item_type item_id = 1 ∧
    (∀ (items2 : Inventory) (id2 : Int) (t2 i2 : String),
      ∀ e ∈ items2, e ∈ (inventoryUnlock items2 id2 t2 i2).2) := by
  have hfirst : inventoryUnlock items tg_id item_type item_id =
      (UnlockResult.okUnlock false, items ++ [(tg_id, item_type, item_id)]) := by
    simp [inventoryUnlock, hid, ht, hi, hnot]
  have howned : invOwned (items ++ [(tg_id, item_type, item_id)]) tg_id item_type item_id = true := by
    simp [invOwned]
  refine ⟨by rw [hfirst], ?_, ?_, ?_, ?_⟩
  · rw [hfirst]
    simp [inventoryUnlock, hid, ht, hi, howned]
  · rw [hfirst]
    simp [inventoryUnlock, hid, ht, hi, howned]
  · rw [hfirst]
    have hz := invCount_eq_zero_of_not_owned items tg_id item_type item_id hnot
    simp only [invCount, List.filter_append, List.length_append] at *
    simp [hz, invCount, List.filter]
  · intro items2 id2 t2 i2 e he
    unfold inventoryUnlock
    split
    · exact he
    · split
      · exact he
      · exact List.mem_append_left _ he

/-- Witness for C9: unlocking wheel skin "gold" twice from empty. -/
theorem unlock_twice_spec_wit :
    invOwned [] 1 "wheel" "gold" = false ∧
    (inventoryUnlock [] 1 "wheel" "gold").1 = UnlockResult.okUnlock false ∧
    (inventoryUnlock (inventoryUnlock [] 1 "wheel" "gold").2 1 "wheel" "gold").1 =
      UnlockResult.okUnlock true ∧
    invCount (inventoryUnlock [] 1 "wheel" "gold").2 1 "wheel" "gold" = 1 := by
  have h := unlock_twice_spec [] 1 "wheel" "gold" (by decide) (by decide) (by decide) (by decide)
  exact ⟨by decide, h.1, h.2.1, h.2.2.2.1⟩

/-- C10: for any numeric `spins_left` value `n` (negative included) the
spins-update operation overwrites the stored `spins_left` with exactly `n`
and stamps `last_seen`, leaving every other field unchanged and performing
no validation against the previous value, the tier cap, or non-negativity
(a non-numeric value is rejected as `bad_args`). -/
theorem spins_update_overwrites (store : UserStore) (tg_id : Int) (acc : Account)
    (n : Int) (now : Nat) (hid : tg_id ≠ 0) (hfind : findUser store tg_id = some acc) :
    (spinsUpdate store tg_id (some n) now).1 = SpinsUpdateResult.okDone ∧
    findUser (spinsUpdate store tg_id (some n) now).2 tg_id =
      some { acc with spins_left := n, last_seen := now } ∧
    (spinsUpdate store tg_id none now).1 = SpinsUpdateResult.badArgs := by
  refine ⟨by simp [spinsUpdate, hid], ?_, by simp [spinsUpdate, hid]⟩
  simp [spinsUpdate, hid, findUser_updateUser_self, hfind]

/-- Witness for C10: `n = -5` is accepted and leaves `spins_left = -5 < 0`. -/
theorem spins_update_overwrites_wit :
    (spinsUpdate [((7 : Int), ⟨10, 20, 0, "free", 0, 0⟩)] 7 (some (-5)) 9).1 =
      SpinsUpdateResult.okDone ∧
    findUser (spinsUpdate [((7 : Int), ⟨10, 20, 0, "free", 0, 0⟩)] 7 (some (-5)) 9).2 7 =
      some ⟨10, -5, 0, "free", 0, 9⟩ ∧
    (-5 : Int) < 0 := by
  have h := spins_update_overwrites [((7 : Int), ⟨10, 20, 0, "free", 0, 0⟩)] 7
    ⟨10, 20, 0, "free", 0, 0⟩ (-5) 9 (by decide) (by decide)
  exact ⟨h.1, h.2.1.trans (by decide), by decide⟩
